import Mathlib

/-!
Shallow embedding of the `employees/views.py` request handlers of the
employee-management application, together with proofs about their behaviour.

The database is modelled as explicit lists of rows (`Account` is the
platform's auth `User` table; `PersonalDetails`, `JobDetails` and
`Performance` are the application's tables).  Each Django view becomes a pure
Lean function from the database, the authenticated user (`request.user`) and
the request data to a result record holding the new database, the flash
messages produced by the handler (after its initial `clear_messages`) and the
HTTP response.  Components of the repository that are not part of the handler
file (`models.py`, `forms.py`, `utils.py`) are modelled from the spec and
marked as such in their doc comments.
-/

namespace EmployeeManagement

/-- HTTP request method, the only part of the request envelope the handlers
branch on. -/
inductive Method where
  | GET
  | POST
deriving Repr, DecidableEq

/-- Level of a flash message (`messages.success` / `messages.error`). -/
inductive MsgLevel where
  | success
  | error
deriving Repr, DecidableEq

/-- A flash message added by a handler. -/
structure Msg where
  level : MsgLevel
  text : String
deriving Repr, DecidableEq

/-- A row of the platform auth `User` table (`django.contrib.auth.models.User`):
primary key, credentials and name fields used by the handlers.  `password`
holds the stored hash. -/
structure Account where
  id : Nat
  username : String
  email : String
  password : String
  first_name : String
  last_name : String
deriving Repr, DecidableEq

/-- A row of the `Performance` table: review date, rating and comments, all
nullable (created empty at registration). -/
structure Performance where
  id : Nat
  review_date : Option String
  rating : Option String
  comments : Option String
deriving Repr, DecidableEq

/-- A row of the `JobDetails` table: role and department strings and the
foreign key to the `Performance` row.  The handlers guard on the performance
link being present (`if performance:`), so the link is optional. -/
structure JobDetails where
  id : Nat
  role : String
  department : String
  performance_id : Option Nat
deriving Repr, DecidableEq

/-- A row of the `PersonalDetails` table: name/contact fields mirroring the
account, plus the foreign key to the `JobDetails` row. -/
structure PersonalDetails where
  id : Nat
  first_name : String
  last_name : String
  username : String
  email : String
  password : String
  job_details_id : Nat
deriving Repr, DecidableEq

/-- The relational store the handlers read and mutate. -/
structure Db where
  accounts : List Account
  personal : List PersonalDetails
  jobs : List JobDetails
  perfs : List Performance
deriving Repr, DecidableEq

/-- `JobDetails.objects` lookup by primary key. -/
def findJob (db : Db) (jid : Nat) : Option JobDetails :=
  db.jobs.find? (fun j => j.id == jid)

/-- `Performance.objects` lookup by primary key. -/
def findPerf (db : Db) (pid : Nat) : Option Performance :=
  db.perfs.find? (fun p => p.id == pid)

/-- Modelled from the spec: `utils.py` is not in src; the spec describes the
lookup helpers as convenience accessors mapping a username to its
Personal/Job/Performance records.  Resolves the `PersonalDetails` row by
username. -/
def get_personal_details_by_username (db : Db) (username : String) :
    Option PersonalDetails :=
  db.personal.find? (fun p => p.username == username)

/-- Modelled from the spec: `utils.py` is not in src.  Resolves the
`JobDetails` row linked from the `PersonalDetails` row of the username. -/
def get_job_details_by_username (db : Db) (username : String) :
    Option JobDetails :=
  (get_personal_details_by_username db username).bind
    (fun p => findJob db p.job_details_id)

/-- Modelled from the spec: `utils.py` is not in src.  Resolves the
`Performance` row linked from the `JobDetails` row of the username. -/
def get_performance_by_username (db : Db) (username : String) :
    Option Performance :=
  (get_job_details_by_username db username).bind
    (fun j =>
      match j.performance_id with
      | some pid => findPerf db pid
      | none => none)

/-- Checks whether `pat` occurs at the head of `s`. -/
def leadMatch : List Char → List Char → Bool
  | [], _ => true
  | _ :: _, [] => false
  | a :: as, b :: bs => (a == b) && leadMatch as bs

/-- Checks whether `pat` occurs anywhere inside `s`. -/
def subMatch : List Char → List Char → Bool
  | pat, [] => pat.isEmpty
  | pat, c :: rest => leadMatch pat (c :: rest) || subMatch pat rest

/-- Django's `icontains` field lookup: case-insensitive substring test of the
query against the stored field value (both sides lowered characterwise). -/
def icontains (field q : String) : Bool :=
  subMatch (q.toList.map Char.toLower) (field.toList.map Char.toLower)

/-- The condition of `employees_list`'s `.exclude(job_details__role='ADM')`:
whether the row's joined `JobDetails` role is `ADM`. -/
def roleMatchesADM (db : Db) (p : PersonalDetails) : Bool :=
  match findJob db p.job_details_id with
  | some j => j.role == "ADM"
  | none => false

/-- The search filter of `employees_list`: query is a case-insensitive
substring of the first name, the last name, or the joined department
(OR-combined `Q` objects). -/
def searchMatches (db : Db) (q : String) (p : PersonalDetails) : Bool :=
  icontains p.first_name q || icontains p.last_name q ||
    (match findJob db p.job_details_id with
     | some j => icontains j.department q
     | none => false)

/-- The base queryset of `employees_list` after the role-visibility step: all
`PersonalDetails` rows, with rows whose joined role is `ADM` excluded when the
caller's own role is not `ADM`. -/
def visible_employees (db : Db) (selfRole : String) : List PersonalDetails :=
  if selfRole == "ADM" then db.personal
  else db.personal.filter (fun p => !(roleMatchesADM db p))

/-- Rendered context of the employee list: the resulting rows and the
caller's own `JobDetails` id. -/
structure ListResult where
  employees : List PersonalDetails
  self_id : Nat
deriving Repr, DecidableEq

/-- The `employees_list` view: resolve the caller's `JobDetails`, apply the
`ADM` visibility rule, then the optional free-text search.  `none` models the
lookup of the caller's own job details failing. -/
def employees_list (db : Db) (user : Account) (search_query : String) :
    Option ListResult :=
  match get_job_details_by_username db user.username with
  | none => none
  | some job_details =>
    let visible := visible_employees db job_details.role
    let employees :=
      if search_query == "" then visible
      else visible.filter (fun p => searchMatches db search_query p)
    some ⟨employees, job_details.id⟩

/-- The response a handler produces: a redirect, a rendered template (with the
URL id echoed into the context where the view does so), or a 404 raised by
`get_object_or_404`. -/
inductive Response where
  | redirect (target : String)
  | page (template : String)
  | pageWithId (template : String) (id : Nat)
  | notFound
deriving Repr, DecidableEq

/-- Result of a handler: the database after the request, the flash messages
the handler added (it clears pre-existing ones first), and the response. -/
structure HandlerResult where
  db : Db
  msgs : List Msg
  resp : Response
deriving Repr, DecidableEq

/-- Modelled from the spec: `django.contrib.auth.hashers.make_password` is a
platform service; any injective stand-in for the hash suffices for the
handler-level properties. -/
def make_password (p : String) : String := "pbkdf2$" ++ p

/-- Modelled from the spec: `forms.py` is not in src; the spec describes the
registration form as collecting first name, last name, username, email and
password, with validation (uniqueness, password rules) deferred to platform
validators.  A value of this type is the `cleaned_data` of a valid form. -/
structure RegisterForm where
  first_name : String
  last_name : String
  username : String
  email : String
  password : String
deriving Repr, DecidableEq

/-- Fresh primary key for a newly created row: one past the largest key. -/
def freshId (ids : List Nat) : Nat := (ids.foldr max 0) + 1

/-- The `user_register` view.  `form = some f` models a valid submission with
cleaned data `f`; `form = none` a submission the form rejects.  On success it
creates the `Account` (password stored hashed), an empty `Performance`, a
`JobDetails` referencing it, and a `PersonalDetails` referencing the
`JobDetails` and mirroring the account's fields. -/
def user_register (db : Db) (method : Method) (form : Option RegisterForm) :
    HandlerResult :=
  match method, form with
  | Method.POST, some f =>
    let user : Account :=
      { id := freshId (db.accounts.map (fun a => a.id)),
        username := f.username, email := f.email,
        password := make_password f.password,
        first_name := f.first_name, last_name := f.last_name }
    let performance_model : Performance :=
      { id := freshId (db.perfs.map (fun p => p.id)),
        review_date := none, rating := none, comments := none }
    let job_details_model : JobDetails :=
      { id := freshId (db.jobs.map (fun j => j.id)),
        role := "", department := "",
        performance_id := some performance_model.id }
    let personal : PersonalDetails :=
      { id := freshId (db.personal.map (fun p => p.id)),
        first_name := user.first_name, last_name := user.last_name,
        username := user.username, email := user.email,
        password := user.password, job_details_id := job_details_model.id }
    ⟨{ accounts := db.accounts ++ [user],
       personal := db.personal ++ [personal],
       jobs := db.jobs ++ [job_details_model],
       perfs := db.perfs ++ [performance_model] },
     [⟨MsgLevel.success, "Registration successful!"⟩],
     Response.redirect "/"⟩
  | Method.POST, none =>
    ⟨db, [⟨MsgLevel.error, "There was an error with your submission."⟩],
      Response.page "register/register.html"⟩
  | Method.GET, _ =>
    ⟨db, [], Response.page "register/register.html"⟩

/-- Rendered context of the profile page: the three records resolved for the
session user. -/
structure ProfileData where
  personal_details : Option PersonalDetails
  job_details : Option JobDetails
  performance : Option Performance
deriving Repr, DecidableEq

/-- The `get_profile_data` view: resolves all three records by the session
user's username; the `id` URL parameter is accepted but never used. -/
def get_profile_data (db : Db) (user : Account) (id : Nat) : ProfileData :=
  { personal_details := get_personal_details_by_username db user.username,
    job_details := get_job_details_by_username db user.username,
    performance := get_performance_by_username db user.username }

/-- Modelled from the spec: `forms.py` is not in src; the spec describes the
profile form as editing the caller's Personal Details fields with an optional
`new_password`.  An empty `new_password` means none was supplied (Django's
falsy check `if new_password:`). -/
structure EditProfileForm where
  first_name : String
  last_name : String
  username : String
  email : String
  new_password : String
deriving Repr, DecidableEq

/-- A session as the auth framework keeps it: the logged-in account's id and
the password hash recorded at login time.  The session stays valid only while
the recorded hash matches the account's current one. -/
def session_valid (db : Db) (s : Nat × String) : Bool :=
  match db.accounts.find? (fun a => a.id == s.1) with
  | some a => a.password == s.2
  | none => false

/-- Result of `update_profile`: database, session after the request (the
handler may re-login the user), flash messages, response. -/
structure ProfileUpdateResult where
  db : Db
  session : Nat × String
  msgs : List Msg
  resp : Response
deriving Repr, DecidableEq

/-- Modelled from the spec: the platform's `authenticate` succeeds exactly
when some account stores the hash of the given password under the given
username. -/
def std_authenticate (db : Db) (username password : String) : Option Account :=
  db.accounts.find?
    (fun a => a.username == username && a.password == make_password password)

/-- The `update_profile` view.  `auth` is the platform's `authenticate`
(queried against the database after the save); the entry session is the
authenticated user's id with their current hash.  On a valid POST it saves
the form onto the `PersonalDetails` row, copies username/email onto the
account, and on a password change hashes and stores the new password and
re-authenticates; a `login` replaces the session with the re-authenticated
user's id and hash. -/
def update_profile (auth : Db → String → String → Option Account)
    (db : Db) (user : Account) (id : Nat) (method : Method)
    (form : Option EditProfileForm) : ProfileUpdateResult :=
  match db.personal.find? (fun p => p.username == user.username) with
  | none => ⟨db, (user.id, user.password), [], Response.notFound⟩
  | some personal_details =>
    match method, form with
    | Method.POST, some f =>
      let db1 : Db :=
        { db with personal := db.personal.map (fun p =>
            if p.id == personal_details.id then
              { p with
                first_name := f.first_name,
                last_name := f.last_name,
                username := f.username,
                email := f.email }
            else p) }
      if f.new_password == "" then
        let userSaved : Account :=
          { user with username := f.username, email := f.email }
        let db2 : Db :=
          { db1 with accounts := db1.accounts.map (fun a =>
              if a.id == user.id then userSaved else a) }
        ⟨db2, (user.id, user.password),
          [⟨MsgLevel.success, "Update was successful."⟩],
          Response.pageWithId "main/edit-profile.html" id⟩
      else
        let userSaved : Account :=
          { user with
            username := f.username,
            email := f.email,
            password := make_password f.new_password }
        let db2 : Db :=
          { db1 with accounts := db1.accounts.map (fun a =>
              if a.id == user.id then userSaved else a) }
        match auth db2 f.username f.new_password with
        | some updated_user =>
          ⟨db2, (updated_user.id, updated_user.password),
            [⟨MsgLevel.success, "Update was successful."⟩],
            Response.pageWithId "main/edit-profile.html" id⟩
        | none =>
          ⟨db2, (user.id, user.password),
            [⟨MsgLevel.success, "Update was successful."⟩],
            Response.pageWithId "main/edit-profile.html" id⟩
    | Method.POST, none =>
      ⟨db, (user.id, user.password),
        [⟨MsgLevel.error, "There was an error with your submission."⟩],
        Response.pageWithId "main/edit-profile.html" id⟩
    | Method.GET, _ =>
      ⟨db, (user.id, user.password), [],
        Response.pageWithId "main/edit-profile.html" id⟩

/-- Modelled from the spec: `forms.py` is not in src; the spec describes the
employee form as the Job Details fields combined with Performance's review
date, rating and comments.  A value of this type is the `cleaned_data` of a
valid form. -/
structure EditEmployeeForm where
  role : String
  department : String
  review_date : Option String
  rating : Option String
  comments : Option String
deriving Repr, DecidableEq

/-- The `update_employee` view: resolve the caller's own `JobDetails`, the
target's `PersonalDetails` (by `job_details__id`), the target `JobDetails`
and its linked `Performance`; reject non-`ADM` callers targeting an `ADM`
employee; on a valid POST save the form onto the `JobDetails` row and, when
the `Performance` exists, copy the review fields onto it. -/
def update_employee (db : Db) (user : Account) (emp_id : Nat)
    (method : Method) (form : Option EditEmployeeForm) : HandlerResult :=
  match get_job_details_by_username db user.username with
  | none => ⟨db, [], Response.notFound⟩
  | some self_job_details =>
    match db.personal.find? (fun p => p.job_details_id == emp_id) with
    | none => ⟨db, [], Response.notFound⟩
    | some _personal_details =>
      match findJob db emp_id with
      | none => ⟨db, [], Response.notFound⟩
      | some job_details =>
        let performance : Option Performance :=
          match job_details.performance_id with
          | some pid => findPerf db pid
          | none => none
        if job_details.role == "ADM" && !(self_job_details.role == "ADM") then
          ⟨db, [⟨MsgLevel.error, "You cannot update an Admin employee."⟩],
            Response.redirect "list"⟩
        else
          match method, form with
          | Method.POST, some f =>
            let db1 : Db :=
              { db with jobs := db.jobs.map (fun j =>
                  if j.id == job_details.id then
                    { j with role := f.role, department := f.department }
                  else j) }
            let db2 : Db :=
              match performance with
              | some perf =>
                { db1 with perfs := db1.perfs.map (fun pr =>
                    if pr.id == perf.id then
                      { pr with
                        review_date := f.review_date,
                        rating := f.rating,
                        comments := f.comments }
                    else pr) }
              | none => db1
            ⟨db2, [⟨MsgLevel.success, "Profile updated successfully!"⟩],
              Response.redirect "list"⟩
          | Method.POST, none =>
            ⟨db, [⟨MsgLevel.error, "There was an error with your submission."⟩],
              Response.pageWithId "main/edit-employee.html" emp_id⟩
          | Method.GET, _ =>
            ⟨db, [], Response.pageWithId "main/edit-employee.html" emp_id⟩

/-- Modelled from the spec: `models.py` is not in src; per the spec's
data-model invariants, deleting a Personal Details row deletes its Job
Details and that Job Details' Performance (cascade). -/
def cascade_delete_personal (db : Db) (pd : PersonalDetails) : Db :=
  let perfIdToDelete : Option Nat :=
    match findJob db pd.job_details_id with
    | some j => j.performance_id
    | none => none
  { db with
    personal := db.personal.filter (fun p => !(p.id == pd.id)),
    jobs := db.jobs.filter (fun j => !(j.id == pd.job_details_id)),
    perfs :=
      match perfIdToDelete with
      | some pid => db.perfs.filter (fun pr => !(pr.id == pid))
      | none => db.perfs }

/-- The `delete_employee` view: resolve the caller's own `JobDetails`, the
target's `PersonalDetails` and `JobDetails`; reject non-`ADM` callers
targeting an `ADM` employee; on POST resolve the target's account by the
Personal Details username, delete it, then delete the Personal Details with
cascade; on GET render the confirmation page. -/
def delete_employee (db : Db) (user : Account) (emp_id : Nat)
    (method : Method) : HandlerResult :=
  match get_job_details_by_username db user.username with
  | none => ⟨db, [], Response.notFound⟩
  | some self_job_details =>
    match db.personal.find? (fun p => p.job_details_id == emp_id) with
    | none => ⟨db, [], Response.notFound⟩
    | some personal_details =>
      match findJob db emp_id with
      | none => ⟨db, [], Response.notFound⟩
      | some job_details =>
        if job_details.role == "ADM" && !(self_job_details.role == "ADM") then
          ⟨db, [⟨MsgLevel.error, "You cannot delete an Admin employee."⟩],
            Response.redirect "main:list"⟩
        else
          match method with
          | Method.POST =>
            match db.accounts.find?
                (fun a => a.username == personal_details.username) with
            | none => ⟨db, [], Response.notFound⟩
            | some acct =>
              let db1 : Db :=
                { db with accounts :=
                    db.accounts.filter (fun a => !(a.id == acct.id)) }
              let db2 := cascade_delete_personal db1 personal_details
              ⟨db2, [⟨MsgLevel.success, "Employee deleted successfully."⟩],
                Response.redirect "main:list"⟩
          | Method.GET =>
            ⟨db, [], Response.page "main/confirm-delete.html"⟩

/-! Concrete sample rows used to evaluate the theorems on closed inputs. -/

/-- Sample admin account. -/
def accAdm : Account := ⟨1, "alice", "alice@x.org", "pbkdf2$alicepw", "Alice", "Prime"⟩

/-- Sample manager account. -/
def accMgr : Account := ⟨2, "bob", "bob@x.org", "pbkdf2$bobpw", "Bob", "Stern"⟩

/-- Sample plain-employee account. -/
def accEmp : Account := ⟨3, "carl", "carl@x.org", "pbkdf2$carlpw", "Carl", "Quiet"⟩

/-- Sample performance row of the admin. -/
def perfAdm : Performance := ⟨1, some "2024-01-01", some "5", some "fine"⟩

/-- Sample performance row of the manager. -/
def perfMgr : Performance := ⟨2, none, none, none⟩

/-- Sample performance row of the employee. -/
def perfEmp : Performance := ⟨3, some "2024-06-01", some "3", some "ok"⟩

/-- Sample job row of the admin. -/
def jobAdm : JobDetails := ⟨1, "ADM", "HR", some 1⟩

/-- Sample job row of the manager. -/
def jobMgr : JobDetails := ⟨2, "MGR", "IT", some 2⟩

/-- Sample job row of the employee. -/
def jobEmp : JobDetails := ⟨3, "EMP", "Sales", some 3⟩

/-- Sample personal-details row of the admin. -/
def pdAdm : PersonalDetails :=
  ⟨1, "Alice", "Prime", "alice", "alice@x.org", "pbkdf2$alicepw", 1⟩

/-- Sample personal-details row of the manager. -/
def pdMgr : PersonalDetails :=
  ⟨2, "Bob", "Stern", "bob", "bob@x.org", "pbkdf2$bobpw", 2⟩

/-- Sample personal-details row of the employee. -/
def pdEmp : PersonalDetails :=
  ⟨3, "Carl", "Quiet", "carl", "carl@x.org", "pbkdf2$carlpw", 3⟩

/-- Sample database: one admin, one non-admin manager, one plain employee. -/
def sampleDb : Db :=
  ⟨[accAdm, accMgr, accEmp], [pdAdm, pdMgr, pdEmp],
   [jobAdm, jobMgr, jobEmp], [perfAdm, perfMgr, perfEmp]⟩

/-- Sample cleaned data of a valid profile-edit form that changes the
password. -/
def sampleProfileForm : EditProfileForm :=
  ⟨"Bobby", "Stern", "bobby", "bobby@x.org", "newsecret"⟩

/-- Sample cleaned data of a valid profile-edit form that leaves the
password alone. -/
def sampleProfileFormNoPw : EditProfileForm :=
  ⟨"Bobby", "Stern", "bobby", "bobby@x.org", ""⟩

/-- Sample cleaned data of a valid employee-edit form. -/
def sampleEmployeeForm : EditEmployeeForm :=
  ⟨"EMP", "IT", some "2025-01-15", some "4", some "improved"⟩

/-- Sample cleaned data of a valid registration form. -/
def sampleRegisterForm : RegisterForm :=
  ⟨"Dana", "Fresh", "dana", "dana@x.org", "danapw"⟩

/-! Auxiliary lemmas about `List.find?` under the row updates and deletions
the handlers perform. -/

/-- Auxiliary: an update mapped over a list moves through `find?` when the
update preserves the predicate on the rows it touches. -/
theorem find_map_update {α : Type} (p : α → Bool) (g : α → α)
    (hg : ∀ x, p x = true → p (g x) = true) :
    ∀ (l : List α) (a : α), l.find? p = some a →
      (l.map (fun x => if p x then g x else x)).find? p = some (g a) := by
  intro l
  induction l with
  | nil => intro a h; simp [List.find?] at h
  | cons x t ih =>
    intro a h
    by_cases hx : p x = true
    · rw [List.find?_cons_of_pos _ hx] at h
      cases h
      simp only [List.map_cons, if_pos hx]
      exact List.find?_cons_of_pos _ (hg x hx)
    · rw [List.find?_cons_of_neg _ hx] at h
      simp only [List.map_cons, if_neg hx]
      rw [List.find?_cons_of_neg _ hx]
      exact ih a h

/-- Auxiliary: `find?` returns `v` when some element satisfies the predicate
and every element satisfying it is `v`. -/
theorem find_eq_of_mem_unique {α : Type} (q : α → Bool) (v : α) :
    ∀ l : List α, (∃ x, x ∈ l ∧ q x = true) →
      (∀ x, x ∈ l → q x = true → x = v) → l.find? q = some v := by
  intro l
  induction l with
  | nil => rintro ⟨x, hx, -⟩ -; cases hx
  | cons a t ih =>
    rintro ⟨x, hx, hqx⟩ huni
    by_cases ha : q a = true
    · rw [List.find?_cons_of_pos _ ha]
      rw [huni a (List.mem_cons_self a t) ha]
    · rw [List.find?_cons_of_neg _ ha]
      rcases List.mem_cons.mp hx with rfl | hxt
      · exact absurd hqx ha
      · exact ih ⟨x, hxt, hqx⟩
          (fun y hy hqy => huni y (List.mem_cons_of_mem a hy) hqy)

/-- Auxiliary: filtering away every element that satisfies a predicate makes
`find?` for that predicate come up empty. -/
theorem find_filter_none {α : Type} (q keep : α → Bool) (l : List α)
    (h : ∀ x, x ∈ l → q x = true → keep x = false) :
    (l.filter keep).find? q = none := by
  rw [List.find?_eq_none]
  intro x hx hq
  have hm := List.mem_filter.mp hx
  have hk := h x hm.1 hq
  rw [hk] at hm
  exact Bool.false_ne_true hm.2

/-- C1: for a caller whose own role is not `ADM` and a target employee whose
role is `ADM`, the edit-employee and delete-employee handlers leave the whole
database unchanged, add one error flash message and redirect to the employee
list, for every request method and form payload. -/
theorem c1_adm_target_protected
    (db : Db) (user : Account) (emp_id : Nat)
    (selfJob targetJob : JobDetails) (pd : PersonalDetails)
    (hself : get_job_details_by_username db user.username = some selfJob)
    (hpd : db.personal.find? (fun p => p.job_details_id == emp_id) = some pd)
    (hjd : findJob db emp_id = some targetJob)
    (hADM : targetJob.role = "ADM")
    (hnot : selfJob.role ≠ "ADM") :
    (∀ method form,
      update_employee db user emp_id method form =
        ⟨db, [⟨MsgLevel.error, "You cannot update an Admin employee."⟩],
          Response.redirect "list"⟩) ∧
    (∀ method,
      delete_employee db user emp_id method =
        ⟨db, [⟨MsgLevel.error, "You cannot delete an Admin employee."⟩],
          Response.redirect "main:list"⟩) := by
  have hcond : (targetJob.role == "ADM" && !(selfJob.role == "ADM")) = true := by
    simp [hADM, hnot]
  constructor
  · intro method form
    simp [update_employee, hself, hpd, hjd, hcond]
  · intro method
    simp [delete_employee, hself, hpd, hjd, hcond]

/-- C1 witness: in the sample database, the non-ADM manager Bob targeting the
admin employee (job id 1) is rejected by both handlers. -/
theorem c1_adm_target_protected_witness :
    (get_job_details_by_username sampleDb accMgr.username = some jobMgr ∧
      sampleDb.personal.find? (fun p => p.job_details_id == 1) = some pdAdm ∧
      findJob sampleDb 1 = some jobAdm ∧
      jobAdm.role = "ADM" ∧ jobMgr.role ≠ "ADM") ∧
    update_employee sampleDb accMgr 1 Method.POST (some sampleEmployeeForm) =
      ⟨sampleDb, [⟨MsgLevel.error, "You cannot update an Admin employee."⟩],
        Response.redirect "list"⟩ ∧
    delete_employee sampleDb accMgr 1 Method.POST =
      ⟨sampleDb, [⟨MsgLevel.error, "You cannot delete an Admin employee."⟩],
        Response.redirect "main:list"⟩ := by
  refine ⟨⟨by decide, by decide, by decide, by decide, by decide⟩, ?_, ?_⟩
  · exact (c1_adm_target_protected sampleDb accMgr 1 jobMgr jobAdm pdAdm
      (by decide) (by decide) (by decide) (by decide) (by decide)).1
      Method.POST (some sampleEmployeeForm)
  · exact (c1_adm_target_protected sampleDb accMgr 1 jobMgr jobAdm pdAdm
      (by decide) (by decide) (by decide) (by decide) (by decide)).2
      Method.POST

/-- C2: the employee list never shows a row with joined role `ADM` to a
caller whose own role is not `ADM`, and for an `ADM` caller no base row that
passes the search filter is excluded. -/
theorem c2_adm_visibility
    (db : Db) (user : Account) (q : String) (selfJob : JobDetails)
    (res : ListResult)
    (hself : get_job_details_by_username db user.username = some selfJob)
    (hres : employees_list db user q = some res) :
    (selfJob.role ≠ "ADM" →
      ∀ p ∈ res.employees, roleMatchesADM db p = false) ∧
    (selfJob.role = "ADM" →
      ∀ p ∈ db.personal, (q ≠ "" → searchMatches db q p = true) →
        p ∈ res.employees) := by
  rw [employees_list, hself] at hres
  simp only [Option.some.injEq] at hres
  constructor
  · intro hrole p hp
    rw [← hres] at hp
    simp only [visible_employees] at hp
    have hv : (selfJob.role == "ADM") = false := by simp [hrole]
    rw [hv] at hp
    simp only [Bool.false_eq_true, if_false] at hp
    by_cases hq : (q == "") = true
    · rw [if_pos hq] at hp
      have := (List.mem_filter.mp hp).2
      simpa using this
    · rw [if_neg hq] at hp
      have hp1 := (List.mem_filter.mp hp).1
      have := (List.mem_filter.mp hp1).2
      simpa using this
  · intro hrole p hp hsearch
    rw [← hres]
    simp only [visible_employees]
    have hv : (selfJob.role == "ADM") = true := by simp [hrole]
    rw [hv]
    simp only [if_true]
    by_cases hq : (q == "") = true
    · rw [if_pos hq]
      exact hp
    · rw [if_neg hq]
      refine List.mem_filter.mpr ⟨hp, ?_⟩
      have hq' : q ≠ "" := by
        intro h
        exact hq (by simp [h])
      exact hsearch hq'

/-- C2 witness: in the sample database the non-ADM manager Bob's listing is
`[pdMgr, pdEmp]`, and neither row's joined role is `ADM`. -/
theorem c2_adm_visibility_witness :
    (get_job_details_by_username sampleDb accMgr.username = some jobMgr ∧
      employees_list sampleDb accMgr "" =
        some ⟨[pdMgr, pdEmp], 2⟩ ∧
      jobMgr.role ≠ "ADM") ∧
    (∀ p ∈ (⟨[pdMgr, pdEmp], 2⟩ : ListResult).employees,
      roleMatchesADM sampleDb p = false) := by
  refine ⟨⟨by decide, by decide, by decide⟩, ?_⟩
  exact (c2_adm_visibility sampleDb accMgr "" jobMgr ⟨[pdMgr, pdEmp], 2⟩
    (by decide) (by decide)).1 (by decide)

/-- Auxiliary: the OR-combined search condition unfolded into its three
disjuncts. -/
theorem searchMatches_iff (db : Db) (q : String) (p : PersonalDetails) :
    searchMatches db q p = true ↔
      (icontains p.first_name q = true ∨ icontains p.last_name q = true ∨
        ∃ j, findJob db p.job_details_id = some j ∧
          icontains j.department q = true) := by
  unfold searchMatches
  cases hj : findJob db p.job_details_id <;> simp [hj, or_assoc]

/-- C7: with a non-empty query the employee list is exactly the visible
employees whose first name, last name or joined department contains the query
case-insensitively; in particular a department match keeps the row, and a
query matching no field of any visible row yields the empty list. -/
theorem c7_search_exact
    (db : Db) (user : Account) (q : String) (selfJob : JobDetails)
    (res : ListResult)
    (hq : q ≠ "")
    (hself : get_job_details_by_username db user.username = some selfJob)
    (hres : employees_list db user q = some res) :
    (∀ p, p ∈ res.employees ↔
      p ∈ visible_employees db selfJob.role ∧
        (icontains p.first_name q = true ∨ icontains p.last_name q = true ∨
          ∃ j, findJob db p.job_details_id = some j ∧
            icontains j.department q = true)) ∧
    (∀ p ∈ visible_employees db selfJob.role,
      (∃ j, findJob db p.job_details_id = some j ∧
        icontains j.department q = true) → p ∈ res.employees) ∧
    ((∀ p ∈ visible_employees db selfJob.role, searchMatches db q p = false) →
      res.employees = []) := by
  rw [employees_list, hself] at hres
  have hq' : (q == "") = false := by simp [hq]
  simp only [hq', Bool.false_eq_true, if_false, Option.some.injEq] at hres
  have hemp : res.employees =
      (visible_employees db selfJob.role).filter
        (fun p => searchMatches db q p) := by
    rw [← hres]
  have hmem : ∀ p, p ∈ res.employees ↔
      p ∈ visible_employees db selfJob.role ∧ searchMatches db q p = true := by
    intro p
    rw [hemp]
    exact List.mem_filter
  refine ⟨?_, ?_, ?_⟩
  · intro p
    rw [hmem p, searchMatches_iff]
  · intro p hp hdep
    rw [hmem p, searchMatches_iff]
    exact ⟨hp, Or.inr (Or.inr hdep)⟩
  · intro hnone
    rw [List.eq_nil_iff_forall_not_mem]
    intro x hx
    have := (hmem x).mp hx
    have hfalse := hnone x this.1
    rw [hfalse] at this
    exact Bool.false_ne_true this.2

/-- C7 witness: in the sample database the admin's search for `sAl` returns
exactly the employee in the `Sales` department, by the department disjunct. -/
theorem c7_search_exact_witness :
    (("sAl" : String) ≠ "" ∧
      get_job_details_by_username sampleDb accAdm.username = some jobAdm ∧
      employees_list sampleDb accAdm "sAl" = some ⟨[pdEmp], 1⟩) ∧
    pdEmp ∈ (⟨[pdEmp], 1⟩ : ListResult).employees := by
  refine ⟨⟨by decide, by decide, by decide⟩, ?_⟩
  exact (c7_search_exact sampleDb accAdm "sAl" jobAdm ⟨[pdEmp], 1⟩
    (by decide) (by decide) (by decide)).2.1 pdEmp (by decide)
    ⟨jobEmp, by decide, by decide⟩

/-- C3: a confirmed (POST) delete by an authorized manager removes the
target's account (resolved by the Personal Details username), the Personal
Details row and, by cascade, its Job Details and that Job Details'
Performance; afterwards lookups by username or id find nothing, and the
handler redirects to the list with a success message. -/
theorem c3_delete_cascades
    (db : Db) (user : Account) (emp_id : Nat)
    (selfJob targetJob : JobDetails) (pd : PersonalDetails) (acct : Account)
    (hself : get_job_details_by_username db user.username = some selfJob)
    (hpd : db.personal.find? (fun p => p.job_details_id == emp_id) = some pd)
    (hjd : findJob db emp_id = some targetJob)
    (hallow : ¬(targetJob.role = "ADM" ∧ selfJob.role ≠ "ADM"))
    (hacct : db.accounts.find? (fun a => a.username == pd.username) = some acct)
    (huacc : ∀ a ∈ db.accounts, a.username = pd.username → a.id = acct.id)
    (hupd : ∀ p2 ∈ db.personal, p2.username = pd.username → p2.id = pd.id)
    (hupd2 : ∀ p2 ∈ db.personal, p2.job_details_id = emp_id → p2.id = pd.id) :
    (delete_employee db user emp_id Method.POST).db.accounts.find?
        (fun a => a.username == pd.username) = none ∧
    get_personal_details_by_username
        (delete_employee db user emp_id Method.POST).db pd.username = none ∧
    (delete_employee db user emp_id Method.POST).db.personal.find?
        (fun p2 => p2.job_details_id == emp_id) = none ∧
    findJob (delete_employee db user emp_id Method.POST).db emp_id = none ∧
    (∀ pid, targetJob.performance_id = some pid →
      findPerf (delete_employee db user emp_id Method.POST).db pid = none) ∧
    (delete_employee db user emp_id Method.POST).msgs =
      [⟨MsgLevel.success, "Employee deleted successfully."⟩] ∧
    (delete_employee db user emp_id Method.POST).resp =
      Response.redirect "main:list" := by
  have hpdid : pd.job_details_id = emp_id := by
    have := List.find?_some hpd
    simpa using this
  have hcond : (targetJob.role == "ADM" && !(selfJob.role == "ADM")) = false := by
    by_cases h1 : targetJob.role = "ADM"
    · have h2 : selfJob.role = "ADM" := by
        by_contra h2
        exact hallow ⟨h1, h2⟩
      simp [h2]
    · simp [h1]
  have hjd1 : findJob
      ⟨db.accounts.filter (fun a => !(a.id == acct.id)),
        db.personal, db.jobs, db.perfs⟩ pd.job_details_id = some targetJob := by
    rw [hpdid]
    exact hjd
  have hr : delete_employee db user emp_id Method.POST =
      ⟨⟨db.accounts.filter (fun a => !(a.id == acct.id)),
         db.personal.filter (fun p2 => !(p2.id == pd.id)),
         db.jobs.filter (fun j => !(j.id == pd.job_details_id)),
         match targetJob.performance_id with
         | some pid => db.perfs.filter (fun pr => !(pr.id == pid))
         | none => db.perfs⟩,
        [⟨MsgLevel.success, "Employee deleted successfully."⟩],
        Response.redirect "main:list"⟩ := by
    rw [delete_employee, hself, hpd, hjd]
    simp only [hcond, Bool.false_eq_true, if_false, hacct]
    rw [cascade_delete_personal, hjd1]
  rw [hr]
  simp only [get_personal_details_by_username, findJob, findPerf]
  refine ⟨?_, ?_, ?_, ?_, ?_, by trivial, by trivial⟩
  · exact find_filter_none _ _ _ (fun a ha hq => by
      have : a.id = acct.id := huacc a ha (by simpa using hq)
      simp [this])
  · exact find_filter_none _ _ _ (fun p2 hp2 hq => by
      have : p2.id = pd.id := hupd p2 hp2 (by simpa using hq)
      simp [this])
  · exact find_filter_none _ _ _ (fun p2 hp2 hq => by
      have : p2.id = pd.id := hupd2 p2 hp2 (by simpa using hq)
      simp [this])
  · exact find_filter_none _ _ _ (fun j hj hq => by
      have : j.id = pd.job_details_id := by
        rw [hpdid]
        simpa using hq
      simp [this])
  · intro pid hpid
    rw [hpid]
    exact find_filter_none _ _ _ (fun pr hpr hq => by
      have : pr.id = pid := by simpa using hq
      simp [this])

/-- C3 witness: in the sample database, the manager Bob's confirmed deletion
of the employee Carl (job id 3) removes account, personal details, job
details and performance, with the success redirect. -/
theorem c3_delete_cascades_witness :
    (get_job_details_by_username sampleDb accMgr.username = some jobMgr ∧
      sampleDb.personal.find? (fun p => p.job_details_id == 3) = some pdEmp ∧
      findJob sampleDb 3 = some jobEmp ∧
      ¬(jobEmp.role = "ADM" ∧ jobMgr.role ≠ "ADM") ∧
      sampleDb.accounts.find? (fun a => a.username == pdEmp.username) =
        some accEmp) ∧
    (delete_employee sampleDb accMgr 3 Method.POST).db.accounts.find?
        (fun a => a.username == pdEmp.username) = none ∧
    get_personal_details_by_username
        (delete_employee sampleDb accMgr 3 Method.POST).db pdEmp.username = none ∧
    findJob (delete_employee sampleDb accMgr 3 Method.POST).db 3 = none ∧
    findPerf (delete_employee sampleDb accMgr 3 Method.POST).db 3 = none := by
  have h := c3_delete_cascades sampleDb accMgr 3 jobMgr jobEmp pdEmp accEmp
    (by decide) (by decide) (by decide) (by decide) (by decide)
    (by decide) (by decide) (by decide)
  exact ⟨⟨by decide, by decide, by decide, by decide, by decide⟩,
    h.1, h.2.1, h.2.2.2.1, h.2.2.2.2.1 3 (by decide)⟩

/-- C4: a valid registration appends exactly one account, one empty
performance, one job-details row referencing that performance and one
personal-details row referencing the job details and mirroring the account's
fields, and creates nothing else; it redirects home with a success message. -/
theorem c4_register_creates_linked_rows (db : Db) (f : RegisterForm) :
    ∃ acc : Account, ∃ pd : PersonalDetails, ∃ jd : JobDetails,
      ∃ perf : Performance,
      user_register db Method.POST (some f) =
        ⟨⟨db.accounts ++ [acc], db.personal ++ [pd],
          db.jobs ++ [jd], db.perfs ++ [perf]⟩,
         [⟨MsgLevel.success, "Registration successful!"⟩],
         Response.redirect "/"⟩ ∧
      perf.review_date = none ∧ perf.rating = none ∧ perf.comments = none ∧
      jd.performance_id = some perf.id ∧ jd.role = "" ∧ jd.department = "" ∧
      pd.job_details_id = jd.id ∧
      pd.first_name = acc.first_name ∧ pd.last_name = acc.last_name ∧
      pd.username = acc.username ∧ pd.email = acc.email ∧
      pd.password = acc.password ∧
      acc.username = f.username ∧ acc.email = f.email ∧
      acc.password = make_password f.password ∧
      acc.first_name = f.first_name ∧ acc.last_name = f.last_name := by
  refine ⟨⟨freshId (db.accounts.map (fun (a : Account) => a.id)), f.username,
      f.email, make_password f.password, f.first_name, f.last_name⟩,
    ⟨freshId (db.personal.map (fun (p : PersonalDetails) => p.id)),
      f.first_name, f.last_name, f.username, f.email, make_password f.password,
      freshId (db.jobs.map (fun (j : JobDetails) => j.id))⟩,
    ⟨freshId (db.jobs.map (fun (j : JobDetails) => j.id)), "", "",
      some (freshId (db.perfs.map (fun (p : Performance) => p.id)))⟩,
    ⟨freshId (db.perfs.map (fun (p : Performance) => p.id)), none, none, none⟩,
    rfl, rfl, rfl, rfl, rfl, rfl, rfl, rfl, rfl, rfl, rfl, rfl, rfl,
    rfl, rfl, rfl, rfl, rfl⟩

/-- C6: a valid edit-employee POST by an authorized manager saves the form's
role and department onto the target's Job Details row, copies the review
fields onto the linked Performance exactly when that record exists, leaves
Personal Details untouched, and redirects to the list with a success
message. -/
theorem c6_edit_employee_saves
    (db : Db) (user : Account) (emp_id : Nat) (f : EditEmployeeForm)
    (selfJob targetJob : JobDetails) (pd : PersonalDetails)
    (hself : get_job_details_by_username db user.username = some selfJob)
    (hpd : db.personal.find? (fun p => p.job_details_id == emp_id) = some pd)
    (hjd : findJob db emp_id = some targetJob)
    (hallow : ¬(targetJob.role = "ADM" ∧ selfJob.role ≠ "ADM")) :
    (update_employee db user emp_id Method.POST (some f)).db.jobs.find?
        (fun j => j.id == emp_id) =
      some ⟨targetJob.id, f.role, f.department, targetJob.performance_id⟩ ∧
    (∀ pid perf, targetJob.performance_id = some pid →
      findPerf db pid = some perf →
      (update_employee db user emp_id Method.POST (some f)).db.perfs.find?
          (fun pr => pr.id == perf.id) =
        some ⟨perf.id, f.review_date, f.rating, f.comments⟩) ∧
    (targetJob.performance_id = none →
      (update_employee db user emp_id Method.POST (some f)).db.perfs =
        db.perfs) ∧
    (∀ pid, targetJob.performance_id = some pid → findPerf db pid = none →
      (update_employee db user emp_id Method.POST (some f)).db.perfs =
        db.perfs) ∧
    (update_employee db user emp_id Method.POST (some f)).db.personal =
      db.personal ∧
    (update_employee db user emp_id Method.POST (some f)).msgs =
      [⟨MsgLevel.success, "Profile updated successfully!"⟩] ∧
    (update_employee db user emp_id Method.POST (some f)).resp =
      Response.redirect "list" := by
  have htid : targetJob.id = emp_id := by simpa using List.find?_some hjd
  have hcond : (targetJob.role == "ADM" && !(selfJob.role == "ADM")) = false := by
    by_cases h1 : targetJob.role = "ADM"
    · have h2 : selfJob.role = "ADM" := by
        by_contra h2
        exact hallow ⟨h1, h2⟩
      simp [h2]
    · simp [h1]
  have key : ∀ po : Option Performance,
      (match targetJob.performance_id with
        | some pid => findPerf db pid
        | none => none) = po →
      update_employee db user emp_id Method.POST (some f) =
        ⟨⟨db.accounts, db.personal,
          db.jobs.map (fun j =>
            if j.id == targetJob.id then
              { j with role := f.role, department := f.department }
            else j),
          match po with
          | some perf =>
            db.perfs.map (fun pr =>
              if pr.id == perf.id then
                { pr with
                  review_date := f.review_date,
                  rating := f.rating,
                  comments := f.comments }
              else pr)
          | none => db.perfs⟩,
         [⟨MsgLevel.success, "Profile updated successfully!"⟩],
         Response.redirect "list"⟩ := by
    intro po hpo
    rw [update_employee, hself, hpd, hjd]
    simp only [hcond, Bool.false_eq_true, if_false, hpo]
    cases po <;> rfl
  refine ⟨?_, ?_, ?_, ?_, ?_, ?_, ?_⟩
  · rw [key _ rfl]
    have hfind : db.jobs.find? (fun j => j.id == targetJob.id) = some targetJob := by
      rw [htid]
      exact hjd
    have := find_map_update (fun j => j.id == targetJob.id)
      (fun j => { j with role := f.role, department := f.department })
      (fun x hx => hx) db.jobs targetJob hfind
    rw [← htid]
    exact this
  · intro pid perf hpid hfp
    rw [key (some perf) (by rw [hpid]; exact hfp)]
    have hperfid : perf.id = pid := by simpa using List.find?_some hfp
    have hfind : db.perfs.find? (fun pr => pr.id == perf.id) = some perf := by
      rw [hperfid]
      exact hfp
    exact find_map_update (fun pr => pr.id == perf.id)
      (fun pr => { pr with
        review_date := f.review_date, rating := f.rating,
        comments := f.comments })
      (fun x hx => hx) db.perfs perf hfind
  · intro hpid
    rw [key none (by rw [hpid])]
  · intro pid hpid hfp
    rw [key none (by rw [hpid]; exact hfp)]
  · rw [key _ rfl]
  · rw [key _ rfl]
  · rw [key _ rfl]

/-- C6 witness: in the sample database the manager Bob's valid edit of the
employee with job id 3 updates the job row, copies the review fields onto
performance row 3, and redirects with the success message. -/
theorem c6_edit_employee_saves_witness :
    (get_job_details_by_username sampleDb accMgr.username = some jobMgr ∧
      sampleDb.personal.find? (fun p => p.job_details_id == 3) = some pdEmp ∧
      findJob sampleDb 3 = some jobEmp ∧
      ¬(jobEmp.role = "ADM" ∧ jobMgr.role ≠ "ADM")) ∧
    (update_employee sampleDb accMgr 3 Method.POST
        (some sampleEmployeeForm)).db.jobs.find? (fun j => j.id == 3) =
      some ⟨3, "EMP", "IT", some 3⟩ ∧
    (update_employee sampleDb accMgr 3 Method.POST
        (some sampleEmployeeForm)).db.perfs.find? (fun pr => pr.id == 3) =
      some ⟨3, some "2025-01-15", some "4", some "improved"⟩ ∧
    (update_employee sampleDb accMgr 3 Method.POST
        (some sampleEmployeeForm)).resp = Response.redirect "list" := by
  have h := c6_edit_employee_saves sampleDb accMgr 3 sampleEmployeeForm
    jobMgr jobEmp pdEmp (by decide) (by decide) (by decide) (by decide)
  exact ⟨⟨by decide, by decide, by decide, by decide⟩,
    h.1, h.2.1 3 perfEmp (by decide) (by decide), h.2.2.2.2.2.2⟩

/-- C5: a valid profile edit that supplies a new password stores the
password's hash on the account and re-establishes the session under the new
credentials, leaving the session valid against the updated account; an edit
that supplies no new password persists the account with the password field
unchanged. -/
theorem c5_profile_password_change
    (db : Db) (user : Account) (id : Nat) (f : EditProfileForm)
    (pd : PersonalDetails) (a0 : Account)
    (hpd : db.personal.find? (fun p => p.username == user.username) = some pd)
    (hacc : db.accounts.find? (fun a => a.id == user.id) = some a0) :
    (f.new_password ≠ "" →
      (∀ a ∈ db.accounts, ¬(a.id = user.id) → ¬(a.username = f.username)) →
      ((update_profile std_authenticate db user id Method.POST
            (some f)).db.accounts.find? (fun a => a.id == user.id) =
        some ⟨user.id, f.username, f.email, make_password f.new_password,
          user.first_name, user.last_name⟩ ∧
      (update_profile std_authenticate db user id Method.POST
          (some f)).session = (user.id, make_password f.new_password) ∧
      session_valid
          (update_profile std_authenticate db user id Method.POST (some f)).db
          (update_profile std_authenticate db user id Method.POST
            (some f)).session = true)) ∧
    (f.new_password = "" →
      (update_profile std_authenticate db user id Method.POST
          (some f)).db.accounts.find? (fun a => a.id == user.id) =
        some ⟨user.id, f.username, f.email, user.password,
          user.first_name, user.last_name⟩) := by
  constructor
  · intro hnp huniq
    have hnp' : (f.new_password == "") = false := by simp [hnp]
    have hfind2 : (db.accounts.map (fun a =>
        if a.id == user.id then
          (⟨user.id, f.username, f.email, make_password f.new_password,
            user.first_name, user.last_name⟩ : Account)
        else a)).find? (fun a => a.id == user.id) =
        some ⟨user.id, f.username, f.email, make_password f.new_password,
          user.first_name, user.last_name⟩ := by
      exact find_map_update _ _ (fun x hx => by simp) db.accounts a0 hacc
    have hmem : (⟨user.id, f.username, f.email, make_password f.new_password,
        user.first_name, user.last_name⟩ : Account) ∈
        db.accounts.map (fun a =>
          if a.id == user.id then
            (⟨user.id, f.username, f.email, make_password f.new_password,
              user.first_name, user.last_name⟩ : Account)
          else a) := by
      refine List.mem_map.mpr ⟨a0, List.mem_of_find?_eq_some hacc, ?_⟩
      have pa0 := List.find?_some hacc
      simp only at pa0
      simp [pa0]
    have hauth : std_authenticate
        ⟨db.accounts.map (fun a =>
            if a.id == user.id then
              (⟨user.id, f.username, f.email, make_password f.new_password,
                user.first_name, user.last_name⟩ : Account)
            else a),
          db.personal.map (fun p =>
            if p.id == pd.id then
              { p with
                first_name := f.first_name,
                last_name := f.last_name,
                username := f.username,
                email := f.email }
            else p),
          db.jobs, db.perfs⟩ f.username f.new_password =
        some ⟨user.id, f.username, f.email, make_password f.new_password,
          user.first_name, user.last_name⟩ := by
      unfold std_authenticate
      refine find_eq_of_mem_unique _ _ _ ⟨_, hmem, by simp⟩ ?_
      intro x hx hqx
      obtain ⟨a, ha, hax⟩ := List.mem_map.mp hx
      by_cases hid : (a.id == user.id) = true
      · rw [← hax]
        simp [hid]
      · rw [← hax] at hqx
        simp only [hid, Bool.false_eq_true, if_false] at hqx
        simp only [Bool.and_eq_true, beq_iff_eq] at hqx
        exact absurd hqx.1 (huniq a ha (fun h => hid (by simp [h])))
    refine ⟨?_, ?_, ?_⟩
    · rw [update_profile, hpd]
      simp only [hnp', Bool.false_eq_true, if_false]
      rw [hauth]
      exact hfind2
    · rw [update_profile, hpd]
      simp only [hnp', Bool.false_eq_true, if_false]
      rw [hauth]
    · rw [update_profile, hpd]
      simp only [hnp', Bool.false_eq_true, if_false]
      rw [hauth]
      simp only [session_valid]
      rw [hfind2]
      simp
  · intro hz
    have hnp' : (f.new_password == "") = true := by simp [hz]
    rw [update_profile, hpd]
    simp only [hnp', if_true]
    exact find_map_update _ _ (fun x hx => by simp) db.accounts a0 hacc

/-- C5 witness: in the sample database the manager Bob's profile edit with
new password `newsecret` stores the hash, re-establishes the session and the
session stays valid. -/
theorem c5_profile_password_change_witness :
    (sampleDb.personal.find? (fun p => p.username == accMgr.username) =
        some pdMgr ∧
      sampleDb.accounts.find? (fun a => a.id == accMgr.id) = some accMgr ∧
      sampleProfileForm.new_password ≠ "") ∧
    ((update_profile std_authenticate sampleDb accMgr 5 Method.POST
        (some sampleProfileForm)).session = (2, "pbkdf2$newsecret") ∧
      session_valid
        (update_profile std_authenticate sampleDb accMgr 5 Method.POST
          (some sampleProfileForm)).db
        (update_profile std_authenticate sampleDb accMgr 5 Method.POST
          (some sampleProfileForm)).session = true) := by
  have h := c5_profile_password_change sampleDb accMgr 5 sampleProfileForm
    pdMgr accMgr (by decide) (by decide)
  have h1 := h.1 (by decide) (by decide)
  exact ⟨⟨by decide, by decide, by decide⟩, h1.2.1, h1.2.2⟩

/-- C8: after a successful profile edit, the username and email stored on the
caller's account equal the username and email stored on the caller's
Personal Details row, for any platform authenticate function. -/
theorem c8_account_personal_sync
    (auth : Db → String → String → Option Account)
    (db : Db) (user : Account) (id : Nat) (f : EditProfileForm)
    (pd : PersonalDetails) (a0 : Account)
    (hpd : db.personal.find? (fun p => p.username == user.username) = some pd)
    (hpdid : db.personal.find? (fun p => p.id == pd.id) = some pd)
    (hacc : db.accounts.find? (fun a => a.id == user.id) = some a0) :
    ((update_profile auth db user id Method.POST (some f)).db.accounts.find?
        (fun a => a.id == user.id)).map (fun a => (a.username, a.email)) =
      some (f.username, f.email) ∧
    ((update_profile auth db user id Method.POST (some f)).db.personal.find?
        (fun p => p.id == pd.id)).map (fun p => (p.username, p.email)) =
      some (f.username, f.email) := by
  rw [update_profile, hpd]
  have hpers : (db.personal.map (fun p =>
      if p.id == pd.id then
        (⟨p.id, f.first_name, f.last_name, f.username, f.email,
          p.password, p.job_details_id⟩ : PersonalDetails)
      else p)).find? (fun p => p.id == pd.id) =
      some ⟨pd.id, f.first_name, f.last_name, f.username, f.email,
        pd.password, pd.job_details_id⟩ :=
    find_map_update (fun p => p.id == pd.id)
      (fun p => ⟨p.id, f.first_name, f.last_name, f.username, f.email,
        p.password, p.job_details_id⟩)
      (fun x hx => hx) db.personal pd hpdid
  by_cases hb : (f.new_password == "") = true
  · simp only [hb, if_true]
    constructor
    · show ((db.accounts.map (fun a =>
          if a.id == user.id then
            (⟨user.id, f.username, f.email, user.password,
              user.first_name, user.last_name⟩ : Account)
          else a)).find? (fun a => a.id == user.id)).map
          (fun a => (a.username, a.email)) = some (f.username, f.email)
      rw [show (db.accounts.map (fun a =>
          if a.id == user.id then
            (⟨user.id, f.username, f.email, user.password,
              user.first_name, user.last_name⟩ : Account)
          else a)).find? (fun a => a.id == user.id) =
        some ⟨user.id, f.username, f.email, user.password,
          user.first_name, user.last_name⟩ from
        find_map_update _ _ (fun x hx => by simp) db.accounts a0 hacc]
      rfl
    · show ((db.personal.map (fun p =>
          if p.id == pd.id then
            (⟨p.id, f.first_name, f.last_name, f.username, f.email,
              p.password, p.job_details_id⟩ : PersonalDetails)
          else p)).find? (fun p => p.id == pd.id)).map
          (fun p => (p.username, p.email)) = some (f.username, f.email)
      rw [hpers]
      rfl
  · simp only [hb, Bool.false_eq_true, if_false]
    constructor
    · split
      all_goals
        show ((db.accounts.map (fun a =>
            if a.id == user.id then
              (⟨user.id, f.username, f.email, make_password f.new_password,
                user.first_name, user.last_name⟩ : Account)
            else a)).find? (fun a => a.id == user.id)).map
            (fun a => (a.username, a.email)) = some (f.username, f.email)
      all_goals
        rw [show (db.accounts.map (fun a =>
            if a.id == user.id then
              (⟨user.id, f.username, f.email, make_password f.new_password,
                user.first_name, user.last_name⟩ : Account)
            else a)).find? (fun a => a.id == user.id) =
          some ⟨user.id, f.username, f.email, make_password f.new_password,
            user.first_name, user.last_name⟩ from
          find_map_update _ _ (fun x hx => by simp) db.accounts a0 hacc]
      all_goals rfl
    · split
      all_goals
        show ((db.personal.map (fun p =>
            if p.id == pd.id then
              (⟨p.id, f.first_name, f.last_name, f.username, f.email,
                p.password, p.job_details_id⟩ : PersonalDetails)
            else p)).find? (fun p => p.id == pd.id)).map
            (fun p => (p.username, p.email)) = some (f.username, f.email)
      all_goals rw [hpers]
      all_goals rfl

/-- C8 witness: in the sample database the manager Bob's successful profile
edit leaves account and Personal Details username/email both at the new
values. -/
theorem c8_account_personal_sync_witness :
    (sampleDb.personal.find? (fun p => p.username == accMgr.username) =
        some pdMgr ∧
      sampleDb.personal.find? (fun p => p.id == pdMgr.id) = some pdMgr ∧
      sampleDb.accounts.find? (fun a => a.id == accMgr.id) = some accMgr) ∧
    ((update_profile std_authenticate sampleDb accMgr 5 Method.POST
        (some sampleProfileForm)).db.accounts.find?
        (fun a => a.id == accMgr.id)).map (fun a => (a.username, a.email)) =
      some ("bobby", "bobby@x.org") ∧
    ((update_profile std_authenticate sampleDb accMgr 5 Method.POST
        (some sampleProfileForm)).db.personal.find?
        (fun p => p.id == pdMgr.id)).map (fun p => (p.username, p.email)) =
      some ("bobby", "bobby@x.org") := by
  have h := c8_account_personal_sync std_authenticate sampleDb accMgr 5
    sampleProfileForm pdMgr accMgr (by decide) (by decide) (by decide)
  exact ⟨⟨by decide, by decide, by decide⟩, h.1, h.2⟩

/-- C9: when the re-authentication after a password change returns no user,
the handler silently keeps the old session, adds no error message, and still
reports the update as successful. -/
theorem c9_reauth_failure_silent
    (auth : Db → String → String → Option Account)
    (db : Db) (user : Account) (id : Nat) (f : EditProfileForm)
    (pd : PersonalDetails)
    (hpd : db.personal.find? (fun p => p.username == user.username) = some pd)
    (hnp : f.new_password ≠ "")
    (hauth : ∀ d, auth d f.username f.new_password = none) :
    (update_profile auth db user id Method.POST (some f)).session =
      (user.id, user.password) ∧
    (update_profile auth db user id Method.POST (some f)).msgs =
      [⟨MsgLevel.success, "Update was successful."⟩] ∧
    (∀ m ∈ (update_profile auth db user id Method.POST (some f)).msgs,
      m.level ≠ MsgLevel.error) ∧
    (update_profile auth db user id Method.POST (some f)).resp =
      Response.pageWithId "main/edit-profile.html" id := by
  have hnp' : (f.new_password == "") = false := by simp [hnp]
  rw [update_profile, hpd]
  simp only [hnp', Bool.false_eq_true, if_false]
  rw [hauth]
  refine ⟨rfl, rfl, ?_, rfl⟩
  intro m hm
  have hm2 : m ∈ [(⟨MsgLevel.success, "Update was successful."⟩ : Msg)] := hm
  rw [List.mem_singleton] at hm2
  rw [hm2]
  intro hcontra
  cases hcontra

/-- C9 witness: with an authenticate that always fails, Bob's password-change
edit keeps the old session pair and reports only success. -/
theorem c9_reauth_failure_silent_witness :
    (sampleDb.personal.find? (fun p => p.username == accMgr.username) =
        some pdMgr ∧
      sampleProfileForm.new_password ≠ "" ∧
      (∀ d : Db, (fun (_ : Db) (_ : String) (_ : String) =>
        (none : Option Account)) d sampleProfileForm.username
          sampleProfileForm.new_password = none)) ∧
    ((update_profile (fun _ _ _ => none) sampleDb accMgr 5 Method.POST
        (some sampleProfileForm)).session = (2, "pbkdf2$bobpw") ∧
      (update_profile (fun _ _ _ => none) sampleDb accMgr 5 Method.POST
        (some sampleProfileForm)).msgs =
        [⟨MsgLevel.success, "Update was successful."⟩]) := by
  have h := c9_reauth_failure_silent (fun _ _ _ => none) sampleDb accMgr 5
    sampleProfileForm pdMgr (by decide) (by decide) (fun d => rfl)
  exact ⟨⟨by decide, by decide, fun d => rfl⟩, h.1, h.2.1⟩

/-- C10: the view-profile and edit-profile handlers ignore the id path
parameter: the profile data resolved, the database written, the session and
the messages are identical for any two id values. -/
theorem c10_profile_ignores_id
    (auth : Db → String → String → Option Account)
    (db : Db) (user : Account) (id1 id2 : Nat) (method : Method)
    (form : Option EditProfileForm) :
    get_profile_data db user id1 = get_profile_data db user id2 ∧
    (update_profile auth db user id1 method form).db =
      (update_profile auth db user id2 method form).db ∧
    (update_profile auth db user id1 method form).session =
      (update_profile auth db user id2 method form).session ∧
    (update_profile auth db user id1 method form).msgs =
      (update_profile auth db user id2 method form).msgs := by
  refine ⟨rfl, ?_⟩
  cases hfind : db.personal.find? (fun p => p.username == user.username) with
  | none =>
    rw [update_profile, update_profile, hfind]
    exact ⟨rfl, rfl, rfl⟩
  | some pd =>
    rw [update_profile, update_profile, hfind]
    cases method with
    | GET => cases form <;> exact ⟨by trivial, by trivial, by trivial⟩
    | POST =>
      cases form with
      | none => exact ⟨by trivial, by trivial, by trivial⟩
      | some f =>
        by_cases hb : (f.new_password == "") = true
        · simp only [hb, if_true]
          exact ⟨by trivial, by trivial, by trivial⟩
        · simp only [hb, Bool.false_eq_true, if_false]
          split <;> exact ⟨by trivial, by trivial, by trivial⟩

end EmployeeManagement
